import Mathlib

/-!
Verification of the temporal-windowing / score-fusion pipeline of the
FINAL_YEAR_PROJECT repository.  The definitions below are shallow embeddings
of the Python source: machine floats are modelled by exact rationals (reals
where a square root occurs), numpy arrays by lists, and Python dicts by
association lists read through `dict.get`.
-/

namespace FYP

/-- `SEQUENCE_LENGTH = 30` from `predict_gesture.py`. -/
def SEQUENCE_LENGTH : Nat := 30

/-- `N_FEATURES = 174` from `predict_gesture.py`. -/
def N_FEATURES : Nat := 174

/-- `CLASS_NAMES` from `predict_gesture.py` (same fixed label set is
hard-coded as `class_names` inside `calculate_scores` in `process_video.py`). -/
def CLASS_NAMES : List String :=
  ["self_touch", "hands_on_table", "hidden_hands", "gestures_on_table"]

/-- Python's `range(0, stop, step)` for `step > 0`: the ascending list of
multiples of `step` strictly below `stop` (documented semantics of the
builtin: `r[i] = step*i` for `0 ≤ i` with `r[i] < stop`). -/
def pyRangeUp (stop step : Nat) : List Nat :=
  (List.range ((stop + step - 1) / step)).map (fun i => i * step)

/-- The window start offsets of the sliding-window loops:
`for start_idx in range(0, len(sequence) - window_size + 1, stride)`.
The Python bound `len(sequence) - window_size + 1` is computed in ℤ, so the
range is empty whenever `len(sequence) < window_size`; the guard `W ≤ L`
models that. -/
def windowStarts (L W S : Nat) : List Nat :=
  if W ≤ L then pyRangeUp (L - W + 1) S else []

/-- The window list produced by `main` in `process_video.py` (lines 386-410):
full windows `sequence[start : start+W]` for each start offset, and then —
whenever `len(sequence) >= window_size` — one extra window
`sequence[-window_size:]` (the last `W` frames), appended unconditionally. -/
def processVideoWindows (seq : List α) (W S : Nat) : List (List α) :=
  ((windowStarts seq.length W S).map (fun s => (seq.drop s).take W)) ++
    (if W ≤ seq.length then [seq.drop (seq.length - W)] else [])

/-- A zero Frame of the given width (`np.zeros`, row of the padded window). -/
def zeroFrame (width : Nat) : List ℚ := List.replicate width 0

/-- The window list produced by `analyze_gesture` in `unified_models_api.py`
(lines 331-344): non-overlapping full windows (stride = window size), then, if
`remaining = len(sequence) % window_size` is strictly between 0 and the window
size, one extra window `last_window` with
`last_window[:remaining] = landmarks_sequence[-remaining:]` and the rest zero
rows — i.e. the remaining frames first, zero padding after them.  The row
width is `landmarks_sequence.shape[1]`. -/
def analyzeGestureWindows (seq : List (List ℚ)) (W : Nat) : List (List (List ℚ)) :=
  let L := seq.length
  let full := (windowStarts L W W).map (fun s => (seq.drop s).take W)
  let remaining := L % W
  let width := (seq.headD []).length
  if 0 < remaining ∧ remaining < W then
    full ++ [seq.drop (L - remaining) ++ List.replicate (W - remaining) (zeroFrame width)]
  else
    full

/-- The window constructed by `GesturePredictor.predict` in
`predict_gesture.py` (lines 217-234) when an explicit `landmarks_sequence` is
passed: sequences shorter than the configured length are left-padded with zero
rows (`sequence = np.zeros(...); sequence[-len:] = landmarks_sequence`, for a
non-empty input), longer ones are truncated to the last `W` frames
(`landmarks_sequence[-W:]`), exact-length ones are used as-is. -/
def buildPredictWindow (seq : List (List ℚ)) (W width : Nat) : List (List ℚ) :=
  if seq.length < W then
    List.replicate (W - seq.length) (zeroFrame width) ++ seq
  else if W < seq.length then
    seq.drop (seq.length - W)
  else
    seq

/-! Basic facts about the start-offset list. -/

theorem pyRangeUp_succ (D S : Nat) (hS : 0 < S) :
    pyRangeUp (D + 1) S = (List.range (D / S + 1)).map (fun i => i * S) := by
  unfold pyRangeUp
  congr 1
  congr 1
  have h1 : D + 1 + S - 1 = D + S := by omega
  rw [h1, Nat.add_div_right _ hS]

theorem windowStarts_eq (L W S : Nat) (hS : 0 < S) (hWL : W ≤ L) :
    windowStarts L W S = (List.range ((L - W) / S + 1)).map (fun i => i * S) := by
  unfold windowStarts
  rw [if_pos hWL, pyRangeUp_succ _ _ hS]

theorem windowStarts_length (L W S : Nat) (hS : 0 < S) (hWL : W ≤ L) :
    (windowStarts L W S).length = (L - W) / S + 1 := by
  rw [windowStarts_eq L W S hS hWL, List.length_map, List.length_range]

/-- C1 (amended): for `L ≥ W` and stride `S > 0`, the sliding-window loop of
`process_video.py` produces exactly `(L - W)/S + 1` full windows at offsets
`0, S, 2S, ...`, each of length `W`, and then appends the tail window (the
last `W` frames) unconditionally — also when `(L - W) % S = 0`. -/
theorem processVideoWindows_spec {α : Type} (seq : List α) (W S : Nat)
    (hS : 0 < S) (hWL : W ≤ seq.length) :
    processVideoWindows seq W S
      = (List.range ((seq.length - W) / S + 1)).map (fun i => (seq.drop (i * S)).take W)
          ++ [seq.drop (seq.length - W)]
    ∧ ∀ w ∈ processVideoWindows seq W S, w.length = W := by
  have hmain : processVideoWindows seq W S
      = (List.range ((seq.length - W) / S + 1)).map (fun i => (seq.drop (i * S)).take W)
          ++ [seq.drop (seq.length - W)] := by
    unfold processVideoWindows
    rw [windowStarts_eq _ _ _ hS hWL, if_pos hWL, List.map_map]
    rfl
  refine ⟨hmain, ?_⟩
  intro w hw
  rw [hmain] at hw
  rcases List.mem_append.mp hw with hfull | htail
  · rcases List.mem_map.mp hfull with ⟨i, hi, rfl⟩
    have hiS : i * S ≤ seq.length - W := by
      have hle : i ≤ (seq.length - W) / S := by
        have := List.mem_range.mp hi
        omega
      calc i * S ≤ (seq.length - W) / S * S := Nat.mul_le_mul_right S hle
        _ ≤ seq.length - W := Nat.div_mul_le_self _ _
    rw [List.length_take, List.length_drop]
    omega
  · rw [List.mem_singleton.mp htail, List.length_drop]
    omega

/-- C1 counterexample: for a sequence of length 30 with window 30 and stride
10 we have `(L - W) % S = 0`, so the claim predicts `(L-W)/S + 1 = 1` window
(no tail), yet the code produces 2 windows (the tail is appended anyway). -/
theorem processVideoWindows_tail_always :
    (processVideoWindows (List.range 30) 30 10).length = 2
    ∧ (30 - 30) % 10 = 0
    ∧ (processVideoWindows (List.range 30) 30 10).length ≠ (30 - 30) / 10 + 1 := by
  decide

/-- C2 counterexample: a single-frame sequence (shorter than window 30) makes
`analyze_gesture` build one window whose FIRST row is the real frame and whose
LAST row is a zero row — the real frames sit at the start, not at the end, so
the window is right-padded, not left-padded. -/
theorem analyzeGesture_pads_right :
    (analyzeGestureWindows [[(5 : ℚ)]] 30).length = 1
    ∧ ((analyzeGestureWindows [[(5 : ℚ)]] 30).headD []).length = 30
    ∧ ((analyzeGestureWindows [[(5 : ℚ)]] 30).headD []).headD [] = [5]
    ∧ ((analyzeGestureWindows [[(5 : ℚ)]] 30).headD []).getLastD [] = [0]
    ∧ ([0] : List ℚ) ≠ [5] := by
  decide

/-- C2 (amended): for a non-empty sequence shorter than the window length,
`GesturePredictor.predict` builds exactly one window, left-padded with zero
frames and the real frames occupying the last positions, whereas
`analyze_gesture` builds exactly one window with the real frames first and the
zero padding after them. -/
theorem short_sequence_single_window (seq : List (List ℚ)) (W width : Nat)
    (hne : seq ≠ []) (hlt : seq.length < W) :
    (buildPredictWindow seq W width).length = W
    ∧ (buildPredictWindow seq W width).take (W - seq.length)
        = List.replicate (W - seq.length) (zeroFrame width)
    ∧ (buildPredictWindow seq W width).drop (W - seq.length) = seq
    ∧ analyzeGestureWindows seq W
        = [seq ++ List.replicate (W - seq.length) (zeroFrame (seq.headD []).length)] := by
  have hbuild : buildPredictWindow seq W width
      = List.replicate (W - seq.length) (zeroFrame width) ++ seq := by
    unfold buildPredictWindow
    rw [if_pos hlt]
  have hreplen : (List.replicate (W - seq.length) (zeroFrame width)).length
      = W - seq.length := List.length_replicate _ _
  refine ⟨?_, ?_, ?_, ?_⟩
  · rw [hbuild, List.length_append, hreplen]
    omega
  · rw [hbuild, List.take_left' hreplen]
  · rw [hbuild, List.drop_left' hreplen]
  · unfold analyzeGestureWindows
    have hstarts : windowStarts seq.length W W = [] := by
      unfold windowStarts
      rw [if_neg (by omega)]
    have hmod : seq.length % W = seq.length := Nat.mod_eq_of_lt hlt
    have hpos : 0 < seq.length := List.length_pos.mpr hne
    simp only [hstarts, List.map_nil, hmod, List.nil_append]
    rw [if_pos ⟨hpos, hlt⟩]
    have : seq.length - seq.length = 0 := Nat.sub_self _
    rw [this, List.drop_zero]

/-- Witness for `short_sequence_single_window` at a 2-frame sequence and
window length 4. -/
theorem short_sequence_single_window_witness :
    (buildPredictWindow [[1], [2]] 4 3).length = 4
    ∧ (buildPredictWindow [[1], [2]] 4 3).take (4 - ([[1], [2]] : List (List ℚ)).length)
        = List.replicate (4 - ([[1], [2]] : List (List ℚ)).length) (zeroFrame 3)
    ∧ (buildPredictWindow [[1], [2]] 4 3).drop (4 - ([[1], [2]] : List (List ℚ)).length)
        = [[1], [2]]
    ∧ analyzeGestureWindows [[1], [2]] 4
        = [[[1], [2]] ++ List.replicate (4 - ([[1], [2]] : List (List ℚ)).length)
            (zeroFrame (([[1], [2]] : List (List ℚ)).headD []).length)] :=
  short_sequence_single_window [[1], [2]] 4 3 (by decide) (by decide)

/-- Witness for `processVideoWindows_spec` at a sequence of length 7 with
window 3 and stride 2. -/
theorem processVideoWindows_spec_witness :
    (processVideoWindows (List.range 7) 3 2
      = (List.range (((List.range 7).length - 3) / 2 + 1)).map
          (fun i => ((List.range 7).drop (i * 2)).take 3)
          ++ [(List.range 7).drop ((List.range 7).length - 3)])
    ∧ ∀ w ∈ processVideoWindows (List.range 7) 3 2, w.length = 3 :=
  processVideoWindows_spec (List.range 7) 3 2 (by decide) (by decide)

/-- C10: a sequence strictly longer than the window length is truncated by
`GesturePredictor.predict` to its last `W` frames: the produced window is
exactly `sequence[-W:]` and the earlier `len - W` frames are the discarded
prefix. -/
theorem predict_truncates_to_last_window (seq : List (List ℚ)) (W width : Nat)
    (hgt : W < seq.length) :
    buildPredictWindow seq W width = seq.drop (seq.length - W)
    ∧ (buildPredictWindow seq W width).length = W
    ∧ seq.take (seq.length - W) ++ buildPredictWindow seq W width = seq := by
  have hbuild : buildPredictWindow seq W width = seq.drop (seq.length - W) := by
    unfold buildPredictWindow
    rw [if_neg (by omega), if_pos hgt]
  refine ⟨hbuild, ?_, ?_⟩
  · rw [hbuild, List.length_drop]
    omega
  · rw [hbuild, List.take_append_drop]

/-- Witness for `predict_truncates_to_last_window` at a 3-frame sequence and
window length 2. -/
theorem predict_truncates_witness :
    buildPredictWindow [[1], [2], [3]] 2 5
        = ([[1], [2], [3]] : List (List ℚ)).drop (([[1], [2], [3]] : List (List ℚ)).length - 2)
    ∧ (buildPredictWindow [[1], [2], [3]] 2 5).length = 2
    ∧ ([[1], [2], [3]] : List (List ℚ)).take (([[1], [2], [3]] : List (List ℚ)).length - 2)
        ++ buildPredictWindow [[1], [2], [3]] 2 5 = [[1], [2], [3]] :=
  predict_truncates_to_last_window [[1], [2], [3]] 2 5 (by decide)

/-! Score aggregation (`calculate_scores`) and weighted fusion
(`calculate_weighted_fusion_score`) from `process_video.py`.  Python dicts of
floats are modelled as association lists of rationals, read through
`dict.get(key, default)`. -/

/-- Python `d.get(k, dflt)` on a dict modelled as an association list. -/
def pyGet (d : List (String × ℚ)) (k : String) (dflt : ℚ) : ℚ :=
  match d.find? (fun kv => kv.1 == k) with
  | some kv => kv.2
  | none => dflt

/-- Python `round(x, 2)`. -/
def round2 (x : ℚ) : ℚ := ((round (x * 100) : ℤ) : ℚ) / 100

/-- The frequency branch of `calculate_scores` (lines 327-341): for each class
of the fixed label set, `round((count / total) * 10, 2)`, and `0` when
`total_predictions` is zero. -/
def freqScores (predictions : List String) (total : Nat) : List (String × ℚ) :=
  CLASS_NAMES.map (fun c =>
    (c, round2 (if 0 < total then ((predictions.count c : ℚ) / total) * 10 else 0)))

/-- The probability-averaging branch of `calculate_scores` (lines 299-325):
for each class, the arithmetic mean of `prob_dict.get(class_name, 0.0)` across
all windows, times 10, rounded to 2 decimals. -/
def avgScores (probabilities_per_second : List (List (String × ℚ))) : List (String × ℚ) :=
  CLASS_NAMES.map (fun c =>
    (c, round2 ((probabilities_per_second.map (fun p => pyGet p c 0)).sum
                  / probabilities_per_second.length * 10)))

/-- `calculate_scores` from `process_video.py`: uses the probability-averaging
branch when `probabilities_per_second` is given and non-empty, otherwise the
frequency branch. -/
def calculate_scores (predictions : List String) (total : Nat)
    (probabilities_per_second : Option (List (List (String × ℚ)))) :
    List (String × ℚ) :=
  match probabilities_per_second with
  | some ps => if 0 < ps.length then avgScores ps else freqScores predictions total
  | none => freqScores predictions total

/-- The two weight dicts of `calculate_weighted_fusion_score` (lines 228-247):
with the smile score present, the five research-based weights; without it, the
four remaining base weights each divided by `0.87`. -/
def fusionWeights (withSmile : Bool) : List (String × ℚ) :=
  if withSmile then
    [("hands_on_table", 28/100), ("hidden_hands", 23/100),
     ("gestures_on_table", 18/100), ("self_touch", 18/100), ("smile", 13/100)]
  else
    [("hands_on_table", 28/100 / (87/100)), ("hidden_hands", 23/100 / (87/100)),
     ("gestures_on_table", 18/100 / (87/100)), ("self_touch", 18/100 / (87/100))]

/-- `calculate_weighted_fusion_score` from `process_video.py` (lines 228-267):
positive indicator `hands_on_table` used as-is, negative indicators inverted to
`10 - score`, missing categories read as `scores.get(key, 0)`, smile term added
when present, result clamped to `[0, 10]` and rounded to 2 decimals. -/
def calculate_weighted_fusion_score (scores : List (String × ℚ))
    (smile_score : Option ℚ) : ℚ :=
  let weights := fusionWeights smile_score.isSome
  let hands_on_table_score := pyGet scores "hands_on_table" 0 * pyGet weights "hands_on_table" 0
  let hidden_hands_score := (10 - pyGet scores "hidden_hands" 0) * pyGet weights "hidden_hands" 0
  let gestures_on_table_score :=
    (10 - pyGet scores "gestures_on_table" 0) * pyGet weights "gestures_on_table" 0
  let self_touch_score := (10 - pyGet scores "self_touch" 0) * pyGet weights "self_touch" 0
  let overall := hands_on_table_score + hidden_hands_score
    + gestures_on_table_score + self_touch_score
  let overall2 :=
    match smile_score with
    | some s => overall + s * pyGet weights "smile" 0
    | none => overall
  round2 (max 0 (min 10 overall2))

/-! Helper lemmas for association-list lookups and rounding. -/

theorem pyGet_nil (k : String) (d : ℚ) : pyGet [] k d = d := rfl

theorem pyGet_cons (kv : String × ℚ) (rest : List (String × ℚ)) (k : String) (d : ℚ) :
    pyGet (kv :: rest) k d = if kv.1 == k then kv.2 else pyGet rest k d := by
  by_cases h : kv.1 == k
  · simp [pyGet, List.find?_cons_of_pos _ h, h]
  · simp [pyGet, List.find?_cons_of_neg _ h, h]

theorem pyGet_map_apply (f : String → ℚ) (d : ℚ) :
    ∀ (names : List String) (c : String), c ∈ names →
      pyGet (names.map (fun n => (n, f n))) c d = f c := by
  intro names
  induction names with
  | nil => intro c hc; cases hc
  | cons n t ih =>
    intro c hc
    rw [List.map_cons, pyGet_cons]
    by_cases h : n = c
    · subst h
      simp
    · have hct : c ∈ t := by
        rcases List.mem_cons.mp hc with h1 | h1
        · exact absurd h1.symm h
        · exact h1
      simp only [beq_iff_eq, if_neg h]
      exact ih c hct

theorem round_le_round_rat {x y : ℚ} (h : x ≤ y) : round x ≤ round y := by
  rw [round_eq, round_eq]
  exact Int.floor_le_floor (by linarith)

theorem round2_bounds {x : ℚ} (h0 : 0 ≤ x) (h10 : x ≤ 10) :
    0 ≤ round2 x ∧ round2 x ≤ 10 := by
  have hlo : (0 : ℤ) ≤ round (x * 100) := by
    have := round_le_round_rat (by linarith : (0 : ℚ) ≤ x * 100)
    simpa using this
  have hhi : round (x * 100) ≤ 1000 := by
    have := round_le_round_rat (by linarith : x * 100 ≤ 1000)
    simpa using this
  constructor
  · unfold round2
    have : (0 : ℚ) ≤ ((round (x * 100) : ℤ) : ℚ) := by exact_mod_cast hlo
    positivity
  · unfold round2
    rw [div_le_iff₀ (by norm_num : (0:ℚ) < 100)]
    have : ((round (x * 100) : ℤ) : ℚ) ≤ 1000 := by exact_mod_cast hhi
    linarith

/-- C3: in probability-averaging mode, each label's score is the arithmetic
mean of that label's probability across the windows, times the scale 10,
rounded to 2 decimals — and the scores are invariant under any permutation of
the window order. -/
theorem avg_scores_mean_perm_invariant
    (ps : List (List (String × ℚ))) (hne : ps ≠ [])
    (c : String) (hc : c ∈ CLASS_NAMES)
    (predictions : List String) (total : Nat) :
    pyGet (calculate_scores predictions total (some ps)) c 0
      = round2 ((ps.map (fun p => pyGet p c 0)).sum / ps.length * 10)
    ∧ ∀ ps' : List (List (String × ℚ)), ps.Perm ps' →
        pyGet (calculate_scores predictions total (some ps')) c 0
          = pyGet (calculate_scores predictions total (some ps)) c 0 := by
  have key : ∀ (qs : List (List (String × ℚ))), 0 < qs.length →
      pyGet (calculate_scores predictions total (some qs)) c 0
        = round2 ((qs.map (fun p => pyGet p c 0)).sum / qs.length * 10) := by
    intro qs hq
    have hred : calculate_scores predictions total (some qs)
        = if 0 < qs.length then avgScores qs else freqScores predictions total := rfl
    rw [hred, if_pos hq]
    unfold avgScores
    exact pyGet_map_apply
      (fun c => round2 ((qs.map (fun p => pyGet p c 0)).sum / qs.length * 10)) 0
      CLASS_NAMES c hc
  have hlen : 0 < ps.length := List.length_pos.mpr hne
  refine ⟨key ps hlen, ?_⟩
  intro ps' hperm
  rw [key ps hlen, key ps' (hperm.length_eq ▸ hlen)]
  rw [← (hperm.map (fun p => pyGet p c 0)).sum_eq, ← hperm.length_eq]

/-- The two-window example of spec §8: probabilities `{A:0.8, B:0.2}` and
`{A:0.4, B:0.6}` with `A = self_touch`, `B = hands_on_table`. -/
def exampleProbs : List (List (String × ℚ)) :=
  [[("self_touch", 4/5), ("hands_on_table", 1/5)],
   [("self_touch", 2/5), ("hands_on_table", 3/5)]]

/-- Witness for `avg_scores_mean_perm_invariant` on the two-window example. -/
theorem avg_scores_witness :
    pyGet (calculate_scores [] 0 (some exampleProbs)) "self_touch" 0
      = round2 ((exampleProbs.map (fun p => pyGet p "self_touch" 0)).sum
                  / exampleProbs.length * 10)
    ∧ ∀ ps' : List (List (String × ℚ)), exampleProbs.Perm ps' →
        pyGet (calculate_scores [] 0 (some ps')) "self_touch" 0
          = pyGet (calculate_scores [] 0 (some exampleProbs)) "self_touch" 0 :=
  avg_scores_mean_perm_invariant exampleProbs (by decide) "self_touch" (by decide) [] 0

/-- The 4-window example of spec §8, with `A = self_touch`,
`B = hands_on_table`. -/
def examplePreds : List String :=
  ["self_touch", "hands_on_table", "self_touch", "self_touch"]

/-- C5: in frequency mode each label of the fixed set scores
`round((count / total) * 10, 2)`, `0` with zero predictions, and on the
4-window example `[A, B, A, A]` the scores are `A = 7.5`, `B = 2.5` and `0`
for the two unused labels. -/
theorem freq_scores_spec :
    (∀ (predictions : List String) (c : String), c ∈ CLASS_NAMES →
      (predictions ≠ [] →
        pyGet (calculate_scores predictions predictions.length none) c 0
          = round2 ((predictions.count c : ℚ) / predictions.length * 10))
      ∧ pyGet (calculate_scores [] 0 none) c 0 = 0)
    ∧ pyGet (calculate_scores examplePreds examplePreds.length none) "self_touch" 0 = 15/2
    ∧ pyGet (calculate_scores examplePreds examplePreds.length none) "hands_on_table" 0 = 5/2
    ∧ pyGet (calculate_scores examplePreds examplePreds.length none) "hidden_hands" 0 = 0
    ∧ pyGet (calculate_scores examplePreds examplePreds.length none) "gestures_on_table" 0 = 0 := by
  have hnone : ∀ (predictions : List String) (total : Nat),
      calculate_scores predictions total none = freqScores predictions total := fun _ _ => rfl
  refine ⟨?_, ?_, ?_, ?_, ?_⟩
  · intro predictions c hc
    constructor
    · intro hne
      have hlen : 0 < predictions.length := List.length_pos.mpr hne
      rw [hnone]
      unfold freqScores
      rw [pyGet_map_apply _ 0 CLASS_NAMES c hc, if_pos hlen]
    · rw [hnone]
      unfold freqScores
      rw [pyGet_map_apply _ 0 CLASS_NAMES c hc, if_neg (by decide)]
      norm_num [round2, round_eq]
  all_goals
    rw [hnone]
    norm_num +decide [freqScores, examplePreds, CLASS_NAMES, pyGet_cons, pyGet_nil,
      round2, round_eq, List.count_cons, List.count_nil]

/-- Witness for `freq_scores_spec` on the 4-window example. -/
theorem freq_scores_witness :
    pyGet (calculate_scores examplePreds examplePreds.length none) "self_touch" 0
      = round2 ((examplePreds.count "self_touch" : ℚ) / examplePreds.length * 10) :=
  (freq_scores_spec.1 examplePreds "self_touch" (by decide)).1 (by decide)

/-- C7 counterexample: with zero predictions `calculate_scores` does not fail
with any `EmptyInput`-like error — it returns the all-zero score dict — and
`calculate_weighted_fusion_score` on a ScoreVector missing every required
category does not fail with `InvalidCategorySet` — it silently substitutes 0
for each category and returns `6.78`. -/
theorem aggregation_never_fails :
    calculate_scores [] 0 none
      = [("self_touch", 0), ("hands_on_table", 0),
         ("hidden_hands", 0), ("gestures_on_table", 0)]
    ∧ calculate_weighted_fusion_score [] none = 339/50 := by
  constructor
  · norm_num +decide [calculate_scores, freqScores, CLASS_NAMES, round2, round_eq]
  · norm_num +decide [calculate_weighted_fusion_score, fusionWeights, pyGet_cons, pyGet_nil,
      round2, round_eq]

/-- Fusion depends on its input ScoreVector only through the four
`scores.get(key, 0)` reads. -/
theorem fusion_congr (a b : List (String × ℚ)) (smile : Option ℚ)
    (h1 : pyGet a "hands_on_table" 0 = pyGet b "hands_on_table" 0)
    (h2 : pyGet a "hidden_hands" 0 = pyGet b "hidden_hands" 0)
    (h3 : pyGet a "gestures_on_table" 0 = pyGet b "gestures_on_table" 0)
    (h4 : pyGet a "self_touch" 0 = pyGet b "self_touch" 0) :
    calculate_weighted_fusion_score a smile = calculate_weighted_fusion_score b smile := by
  unfold calculate_weighted_fusion_score
  rw [h1, h2, h3, h4]

/-- C7 (amended): instead of failing, zero-prediction aggregation returns 0
for every label of the fixed set, and fusion treats an empty ScoreVector
exactly like one that maps every required category to 0. -/
theorem missing_value_defaults :
    (∀ c ∈ CLASS_NAMES, pyGet (calculate_scores [] 0 none) c 0 = 0)
    ∧ ∀ smile : Option ℚ,
        calculate_weighted_fusion_score [] smile
          = calculate_weighted_fusion_score
              [("hands_on_table", 0), ("hidden_hands", 0),
               ("gestures_on_table", 0), ("self_touch", 0)] smile := by
  constructor
  · intro c hc
    fin_cases hc <;>
      norm_num +decide [calculate_scores, freqScores, CLASS_NAMES, pyGet_cons, pyGet_nil,
        round2, round_eq]
  · intro smile
    exact fusion_congr _ _ smile (by decide) (by decide) (by decide) (by decide)

/-- Witness for `missing_value_defaults` at label `self_touch` and smile 5. -/
theorem missing_value_defaults_witness :
    pyGet (calculate_scores [] 0 none) "self_touch" 0 = 0
    ∧ calculate_weighted_fusion_score [] (some 5)
        = calculate_weighted_fusion_score
            [("hands_on_table", 0), ("hidden_hands", 0),
             ("gestures_on_table", 0), ("self_touch", 0)] (some 5) :=
  ⟨missing_value_defaults.1 "self_touch" (by simp [CLASS_NAMES]),
   missing_value_defaults.2 (some 5)⟩

/-! Spec-side fusion formula, for the refinement comparison of C4.  The three
definitions below are written from the spec's words (§4.4), not from the
source: base weights per category, a fixed polarity table, and proportional
renormalization over the remaining categories when the external smile scalar
is absent. -/

/-- The four fused categories, in the order the spec lists them. -/
def specCategories : List String :=
  ["hands_on_table", "hidden_hands", "gestures_on_table", "self_touch"]

/-- Base weights (spec §4.4: fixed base weight per category, summing to 1.0
when the optional external scalar is present). -/
def specBaseWeights : List (String × ℚ) :=
  [("hands_on_table", 28/100), ("hidden_hands", 23/100),
   ("gestures_on_table", 18/100), ("self_touch", 18/100), ("smile", 13/100)]

/-- Polarity table (spec §4.4: `hands_on_table` and `smile` are positive
indicators, the others negative). -/
def specPositive (c : String) : Bool :=
  c == "hands_on_table" || c == "smile"

/-- Spec §4.4 weight rule: base weight when the external scalar is present;
otherwise the base weight divided by the sum of the remaining base weights. -/
def specWeight (withSmile : Bool) (c : String) : ℚ :=
  if withSmile then pyGet specBaseWeights c 0
  else pyGet specBaseWeights c 0
        / ((specCategories.map (fun k => pyGet specBaseWeights k 0)).sum)

/-- Spec §4.4 fusion: weighted sum of polarity-adjusted category scores plus
the optional external term, clamped to `[0, 10]` and rounded to 2 decimals. -/
def specFusion (scores : List (String × ℚ)) (smile : Option ℚ) : ℚ :=
  let body :=
    (specCategories.map (fun c =>
        specWeight smile.isSome c *
          (if specPositive c then pyGet scores c 0 else 10 - pyGet scores c 0))).sum
    + (match smile with
       | some s => specWeight true "smile" * s
       | none => 0)
  round2 (max 0 (min 10 body))

/-- C4: the weights used with the smile scalar present sum to 1; the weights
used without it are the base weights renormalized by the sum of the remaining
base weights and again sum to 1; the fusion equals the spec's
polarity-weighted clamped-rounded formula; and its output always lies in
`[0, 10]`. -/
theorem fusion_weighted_spec :
    ((fusionWeights true).map Prod.snd).sum = 1
    ∧ ((fusionWeights false).map Prod.snd).sum = 1
    ∧ (∀ c ∈ specCategories,
        pyGet (fusionWeights false) c 0
          = pyGet (fusionWeights true) c 0
              / ((specCategories.map (fun k => pyGet (fusionWeights true) k 0)).sum))
    ∧ (∀ (scores : List (String × ℚ)) (smile : Option ℚ),
        calculate_weighted_fusion_score scores smile = specFusion scores smile)
    ∧ (∀ (scores : List (String × ℚ)) (smile : Option ℚ),
        0 ≤ calculate_weighted_fusion_score scores smile
        ∧ calculate_weighted_fusion_score scores smile ≤ 10) := by
  refine ⟨?_, ?_, ?_, ?_, ?_⟩
  · norm_num [fusionWeights]
  · norm_num [fusionWeights]
  · intro c hc
    fin_cases hc <;>
      norm_num +decide [fusionWeights, specCategories, pyGet_cons, pyGet_nil]
  · intro scores smile
    cases smile with
    | none =>
      unfold calculate_weighted_fusion_score specFusion
      norm_num +decide [fusionWeights, specCategories, specBaseWeights, specWeight,
        specPositive, pyGet_cons, pyGet_nil]
      ring_nf
    | some s =>
      unfold calculate_weighted_fusion_score specFusion
      norm_num +decide [fusionWeights, specCategories, specBaseWeights, specWeight,
        specPositive, pyGet_cons, pyGet_nil]
      ring_nf
  · intro scores smile
    unfold calculate_weighted_fusion_score
    exact round2_bounds (le_max_left _ _) (max_le (by norm_num) (min_le_left _ _))

/-- Witness for `fusion_weighted_spec` on a concrete ScoreVector. -/
theorem fusion_weighted_spec_witness :
    pyGet (fusionWeights false) "hands_on_table" 0
      = pyGet (fusionWeights true) "hands_on_table" 0
          / ((specCategories.map (fun k => pyGet (fusionWeights true) k 0)).sum)
    ∧ calculate_weighted_fusion_score [("hands_on_table", 8)] (some 6)
        = specFusion [("hands_on_table", 8)] (some 6)
    ∧ 0 ≤ calculate_weighted_fusion_score [("hands_on_table", 8)] (some 6)
    ∧ calculate_weighted_fusion_score [("hands_on_table", 8)] (some 6) ≤ 10 :=
  ⟨fusion_weighted_spec.2.2.1 "hands_on_table" (by simp [specCategories]),
   fusion_weighted_spec.2.2.2.1 _ _,
   (fusion_weighted_spec.2.2.2.2 [("hands_on_table", 8)] (some 6)).1,
   (fusion_weighted_spec.2.2.2.2 [("hands_on_table", 8)] (some 6)).2⟩

/-- `GesturePredictor.add_frame` from `predict_gesture.py` (lines 180-200):
raises `ValueError` when the frame width differs from `N_FEATURES`; otherwise
appends the frame to the buffer, keeps only the last `sequence_length` frames
when the buffer exceeds that capacity
(`self.frame_buffer = self.frame_buffer[-self.sequence_length:]`), and returns
`len(self.frame_buffer) >= self.sequence_length`.  The capacity
`self.sequence_length` (set to `SEQUENCE_LENGTH` at construction) is the
parameter `N`. -/
def add_frame (frame_buffer : List (List ℚ)) (landmarks : List ℚ) (N : Nat) :
    Except String (List (List ℚ) × Bool) :=
  if landmarks.length ≠ N_FEATURES then
    Except.error "feature count mismatch"
  else
    let b := frame_buffer ++ [landmarks]
    let b2 := if N < b.length then b.drop (b.length - N) else b
    Except.ok (b2, decide (N ≤ b2.length))

/-- C6: appending a frame of the configured width never errors; the resulting
buffer is the suffix of `buffer ++ [frame]` of length `min (len+1) N` (the
most recent ≤ N frames, in temporal order), and the returned ready flag is
true exactly when the resulting length equals the capacity `N`. -/
theorem add_frame_spec (buf : List (List ℚ)) (f : List ℚ) (N : Nat)
    (hdim : f.length = N_FEATURES) :
    add_frame buf f N
      = Except.ok ((buf ++ [f]).drop (buf.length + 1 - N), decide (N ≤ buf.length + 1))
    ∧ ((buf ++ [f]).drop (buf.length + 1 - N)).length = min (buf.length + 1) N
    ∧ (decide (N ≤ buf.length + 1) = true
        ↔ ((buf ++ [f]).drop (buf.length + 1 - N)).length = N)
    ∧ (buf ++ [f]).take (buf.length + 1 - N) ++ (buf ++ [f]).drop (buf.length + 1 - N)
        = buf ++ [f] := by
  have hne : ¬ f.length ≠ N_FEATURES := by simp [hdim]
  have hb : (buf ++ [f]).length = buf.length + 1 := by simp
  have hdrop : ((buf ++ [f]).drop (buf.length + 1 - N)).length = min (buf.length + 1) N := by
    rw [List.length_drop, hb]
    omega
  refine ⟨?_, hdrop, ?_, List.take_append_drop _ _⟩
  · unfold add_frame
    rw [if_neg hne]
    dsimp only
    rw [hb]
    by_cases h : N < buf.length + 1
    · rw [if_pos h]
      congr 1
      congr 1
      rw [hdrop, decide_eq_decide]
      omega
    · rw [if_neg h]
      have h0 : buf.length + 1 - N = 0 := by omega
      rw [h0, List.drop_zero, hb]
  · rw [hdrop, decide_eq_true_eq]
    omega

/-- Witness for `add_frame_spec`: a 2-frame buffer with capacity 2 receiving a
third valid frame. -/
theorem add_frame_witness :
    add_frame [zeroFrame 174, zeroFrame 174] (zeroFrame 174) 2
      = Except.ok ((([zeroFrame 174, zeroFrame 174] : List (List ℚ)) ++ [zeroFrame 174]).drop
            (([zeroFrame 174, zeroFrame 174] : List (List ℚ)).length + 1 - 2),
          decide (2 ≤ ([zeroFrame 174, zeroFrame 174] : List (List ℚ)).length + 1))
    ∧ ((([zeroFrame 174, zeroFrame 174] : List (List ℚ)) ++ [zeroFrame 174]).drop
          (([zeroFrame 174, zeroFrame 174] : List (List ℚ)).length + 1 - 2)).length
        = min (([zeroFrame 174, zeroFrame 174] : List (List ℚ)).length + 1) 2
    ∧ (decide (2 ≤ ([zeroFrame 174, zeroFrame 174] : List (List ℚ)).length + 1) = true
        ↔ ((([zeroFrame 174, zeroFrame 174] : List (List ℚ)) ++ [zeroFrame 174]).drop
              (([zeroFrame 174, zeroFrame 174] : List (List ℚ)).length + 1 - 2)).length = 2)
    ∧ (([zeroFrame 174, zeroFrame 174] : List (List ℚ)) ++ [zeroFrame 174]).take
          (([zeroFrame 174, zeroFrame 174] : List (List ℚ)).length + 1 - 2)
        ++ (([zeroFrame 174, zeroFrame 174] : List (List ℚ)) ++ [zeroFrame 174]).drop
          (([zeroFrame 174, zeroFrame 174] : List (List ℚ)).length + 1 - 2)
        = ([zeroFrame 174, zeroFrame 174] : List (List ℚ)) ++ [zeroFrame 174] :=
  add_frame_spec [zeroFrame 174, zeroFrame 174] (zeroFrame 174) 2
    (by unfold zeroFrame N_FEATURES; exact List.length_replicate 174 0)

/-! Numeric safety of the feature vector handed to the smile model
(`predict_smile.py` lines 116-120; `video_smile_pipeline.py` lines 255-258). -/

/-- A numpy float as seen by `np.nan_to_num`: a finite value, NaN, `+inf`, or
`-inf`. -/
inductive PyVal where
  | num (q : ℚ)
  | nan
  | posinf
  | neginf
deriving DecidableEq

/-- Whether the value is finite. -/
def PyVal.isFinite : PyVal → Bool
  | num _ => true
  | _ => false

/-- `np.nan_to_num(x, nan=0.0, posinf=0.0, neginf=0.0)`, elementwise. -/
def nan_to_num : PyVal → PyVal
  | PyVal.num q => PyVal.num q
  | _ => PyVal.num 0

/-- `stats.get(col, 0)` on the statistics dict. -/
def pyGetV (d : List (String × PyVal)) (k : String) (dflt : PyVal) : PyVal :=
  match d.find? (fun kv => kv.1 == k) with
  | some kv => kv.2
  | none => dflt

/-- `X = np.array([[stats.get(col, 0) for col in feature_cols]])` followed by
`X = np.nan_to_num(X, nan=0.0, posinf=0.0, neginf=0.0)`, from `predict_smile`
(and identically from `process_uploaded_video`). -/
def buildFeatureVector (stats : List (String × PyVal)) (feature_cols : List String) :
    List PyVal :=
  (feature_cols.map (fun col => pyGetV stats col (PyVal.num 0))).map nan_to_num

/-- C8: the feature vector handed to the model is emitted in the
caller-specified key order; every entry is finite; a requested key the
extractor did not compute contributes exactly 0; and any non-finite computed
statistic is replaced by 0. -/
theorem feature_vector_finite (stats : List (String × PyVal)) (feature_cols : List String) :
    buildFeatureVector stats feature_cols
      = feature_cols.map (fun col => nan_to_num (pyGetV stats col (PyVal.num 0)))
    ∧ (∀ v ∈ buildFeatureVector stats feature_cols, v.isFinite = true)
    ∧ (∀ col, stats.find? (fun kv => kv.1 == col) = none →
        nan_to_num (pyGetV stats col (PyVal.num 0)) = PyVal.num 0)
    ∧ (∀ col, (pyGetV stats col (PyVal.num 0)).isFinite = false →
        nan_to_num (pyGetV stats col (PyVal.num 0)) = PyVal.num 0) := by
  refine ⟨?_, ?_, ?_, ?_⟩
  · unfold buildFeatureVector
    rw [List.map_map]
    rfl
  · intro v hv
    unfold buildFeatureVector at hv
    rcases List.mem_map.mp hv with ⟨w, _, rfl⟩
    cases w <;> rfl
  · intro col hnone
    unfold pyGetV
    rw [hnone]
    rfl
  · intro col hbad
    rcases hv : pyGetV stats col (PyVal.num 0) with q | _ | _ | _
    · rw [hv] at hbad
      simp [PyVal.isFinite] at hbad
    all_goals rfl

/-- Witness for `feature_vector_finite`: a stats dict whose only entry is NaN,
queried with one computed and one missing key. -/
theorem feature_vector_finite_witness :
    (∀ v ∈ buildFeatureVector [("a", PyVal.nan)] ["a", "b"], v.isFinite = true)
    ∧ nan_to_num (pyGetV [("a", PyVal.nan)] "b" (PyVal.num 0)) = PyVal.num 0
    ∧ nan_to_num (pyGetV [("a", PyVal.nan)] "a" (PyVal.num 0)) = PyVal.num 0 :=
  ⟨(feature_vector_finite [("a", PyVal.nan)] ["a", "b"]).2.1,
   (feature_vector_finite [("a", PyVal.nan)] ["a", "b"]).2.2.1 "b" (by decide),
   (feature_vector_finite [("a", PyVal.nan)] ["a", "b"]).2.2.2 "a" (by decide)⟩

/-! Per-channel statistics of `calculate_statistics` in `predict_smile.py`
(lines 20-103), for the entries named by claim C9.  Floats are modelled by
exact rationals; the square root of `np.std` lives in ℝ. -/

/-- The `1e-10` epsilon guard of `calculate_statistics`. -/
def epsilon : ℚ := 1 / 10000000000

/-- `np.mean(col_data)`. -/
def np_mean (xs : List ℚ) : ℚ := xs.sum / xs.length

/-- `np.var(col_data)` (population variance, numpy default `ddof=0`). -/
def np_var (xs : List ℚ) : ℚ := (xs.map (fun x => (x - np_mean xs) ^ 2)).sum / xs.length

/-- `np.std(col_data)` = square root of the population variance. -/
noncomputable def np_std (xs : List ℚ) : ℝ := Real.sqrt ((np_var xs : ℚ) : ℝ)

/-- `np.max(col_data)` on a non-empty list (numpy raises on an empty one; the
uses below are guarded by non-emptiness checks, as in the source). -/
def np_max (xs : List ℚ) : ℚ :=
  match xs with
  | [] => 0
  | h :: t => t.foldl max h

/-- `np.percentile(col_data, q)` with numpy's default linear interpolation:
with the data sorted ascending and `h = (q/100) * (n-1)`, interpolate between
the entries at `⌊h⌋` and `min (⌊h⌋+1) (n-1)`. -/
def np_percentile (xs : List ℚ) (q : ℚ) : ℚ :=
  let sorted := List.insertionSort (fun a b => a ≤ b) xs
  let h := q / 100 * ((xs.length : ℚ) - 1)
  let lower := (Int.floor h).toNat
  let upper := min (lower + 1) (xs.length - 1)
  sorted.getD lower 0 + (h - (lower : ℚ)) * (sorted.getD upper 0 - sorted.getD lower 0)

/-- `stats[prefix_iqr] = q75 - q25`. -/
def stat_iqr (xs : List ℚ) : ℚ := np_percentile xs 75 - np_percentile xs 25

/-- `np.diff(col_data)`: consecutive differences `x[i+1] - x[i]`. -/
def np_diff (xs : List ℚ) : List ℚ := List.zipWith (fun a b => b - a) xs xs.tail

/-- `np.mean(diff) if len(diff) > 0 else 0`. -/
def stat_diff_mean (xs : List ℚ) : ℚ :=
  if 0 < (np_diff xs).length then np_mean (np_diff xs) else 0

/-- `np.std(diff) if len(diff) > 0 else 0`. -/
noncomputable def stat_diff_std (xs : List ℚ) : ℝ :=
  if 0 < (np_diff xs).length then np_std (np_diff xs) else 0

/-- `np.max(np.abs(diff)) if len(diff) > 0 else 0`. -/
def stat_diff_max (xs : List ℚ) : ℚ :=
  if 0 < (np_diff xs).length then np_max ((np_diff xs).map (fun x => |x|)) else 0

/-- `stats[prefix_cv] = stats[prefix_std] / (stats[prefix_mean] + 1e-10)`. -/
noncomputable def stat_cv (xs : List ℚ) : ℝ :=
  np_std xs / (((np_mean xs : ℚ) : ℝ) + ((epsilon : ℚ) : ℝ))

/-! Constant-series facts for C9. -/

theorem np_mean_replicate (c : ℚ) (n : Nat) (hn : 1 ≤ n) :
    np_mean (List.replicate n c) = c := by
  unfold np_mean
  rw [List.sum_replicate, List.length_replicate, nsmul_eq_mul]
  have hpos : (0 : ℚ) < n := by exact_mod_cast hn
  field_simp

theorem np_mean_replicate_zero (m : Nat) : np_mean (List.replicate m (0 : ℚ)) = 0 := by
  unfold np_mean
  rw [List.sum_replicate, List.length_replicate, smul_zero, zero_div]

theorem np_var_replicate (c : ℚ) (n : Nat) (hn : 1 ≤ n) :
    np_var (List.replicate n c) = 0 := by
  unfold np_var
  rw [np_mean_replicate c n hn, List.map_replicate]
  simp

theorem np_var_replicate_zero (m : Nat) : np_var (List.replicate m (0 : ℚ)) = 0 := by
  unfold np_var
  rw [np_mean_replicate_zero, List.map_replicate]
  simp

theorem insertionSort_replicate (n : Nat) (c : ℚ) :
    List.insertionSort (fun a b => a ≤ b) (List.replicate n c) = List.replicate n c := by
  have hperm := List.perm_insertionSort (fun a b => a ≤ b) (List.replicate n c)
  rw [List.eq_replicate_iff]
  refine ⟨by rw [hperm.length_eq, List.length_replicate], ?_⟩
  intro b hb
  exact List.eq_of_mem_replicate (hperm.mem_iff.mp hb)

theorem getD_replicate (c d : ℚ) :
    ∀ (n i : Nat), i < n → (List.replicate n c).getD i d = c := by
  intro n
  induction n with
  | zero => intro i hi; exact absurd hi (Nat.not_lt_zero i)
  | succ m ih =>
    intro i hi
    cases i with
    | zero => rfl
    | succ j => exact ih j (Nat.lt_of_succ_lt_succ hi)

theorem np_percentile_replicate (c q : ℚ) (n : Nat) (hn : 1 ≤ n) (hq0 : 0 ≤ q)
    (hq1 : q ≤ 100) : np_percentile (List.replicate n c) q = c := by
  unfold np_percentile
  dsimp only
  rw [insertionSort_replicate, List.length_replicate]
  have hn1 : (1 : ℚ) ≤ (n : ℚ) := by exact_mod_cast hn
  have hge : 0 ≤ q / 100 * ((n : ℚ) - 1) := by
    apply mul_nonneg
    · positivity
    · linarith
  have hq100 : q / 100 ≤ 1 := (div_le_one (by norm_num)).mpr hq1
  have hle : q / 100 * ((n : ℚ) - 1) ≤ (n : ℚ) - 1 := by
    calc q / 100 * ((n : ℚ) - 1) ≤ 1 * ((n : ℚ) - 1) :=
          mul_le_mul_of_nonneg_right hq100 (by linarith)
      _ = (n : ℚ) - 1 := one_mul _
  have hfl0 : 0 ≤ ⌊q / 100 * ((n : ℚ) - 1)⌋ := Int.floor_nonneg.mpr hge
  have hfl : ⌊q / 100 * ((n : ℚ) - 1)⌋ ≤ (n : ℤ) - 1 := by
    calc ⌊q / 100 * ((n : ℚ) - 1)⌋ ≤ ⌊(n : ℚ) - 1⌋ := Int.floor_le_floor hle
      _ = (n : ℤ) - 1 := by
          have hcast : ((n : ℚ) - 1) = (((n : ℤ) - 1 : ℤ) : ℚ) := by push_cast; ring
          rw [hcast, Int.floor_intCast]
  have hlow : (⌊q / 100 * ((n : ℚ) - 1)⌋).toNat < n := by omega
  have hup : min ((⌊q / 100 * ((n : ℚ) - 1)⌋).toNat + 1) (n - 1) < n := by omega
  rw [getD_replicate c 0 n _ hlow, getD_replicate c 0 n _ hup]
  ring

theorem np_diff_replicate (c : ℚ) :
    ∀ n : Nat, np_diff (List.replicate n c) = List.replicate (n - 1) 0 := by
  intro n
  induction n with
  | zero => rfl
  | succ m ih =>
    cases m with
    | zero => rfl
    | succ k =>
      have hstep : np_diff (List.replicate (k + 2) c)
          = (c - c) :: np_diff (List.replicate (k + 1) c) := rfl
      have hih : np_diff (List.replicate (k + 1) c) = List.replicate k 0 := ih
      show np_diff (List.replicate (k + 2) c) = List.replicate (k + 1) 0
      rw [hstep, hih, sub_self]
      rfl

theorem np_max_replicate_zero : ∀ m : Nat, np_max (List.replicate m (0 : ℚ)) = 0 := by
  have hfold : ∀ m : Nat, (List.replicate m (0 : ℚ)).foldl max 0 = 0 := by
    intro m
    induction m with
    | zero => rfl
    | succ k ih =>
      rw [List.replicate_succ, List.foldl_cons, max_self]
      exact ih
  intro m
  cases m with
  | zero => rfl
  | succ k => exact hfold k

/-- C9: on a constant series of length ≥ 1 the variance, standard deviation,
inter-quartile range and all first-difference statistics computed by
`calculate_statistics` are exactly 0, and the epsilon-guarded coefficient of
variation `std / (mean + 1e-10)` equals 0 — in particular it is finite. -/
theorem constant_series_stats (c : ℚ) (n : Nat) (hn : 1 ≤ n) :
    np_var (List.replicate n c) = 0
    ∧ np_std (List.replicate n c) = 0
    ∧ stat_iqr (List.replicate n c) = 0
    ∧ stat_diff_mean (List.replicate n c) = 0
    ∧ stat_diff_std (List.replicate n c) = 0
    ∧ stat_diff_max (List.replicate n c) = 0
    ∧ stat_cv (List.replicate n c) = 0 := by
  have hvar := np_var_replicate c n hn
  have hstd : np_std (List.replicate n c) = 0 := by
    unfold np_std
    rw [hvar]
    simp
  have hdiff := np_diff_replicate c n
  refine ⟨hvar, hstd, ?_, ?_, ?_, ?_, ?_⟩
  · unfold stat_iqr
    rw [np_percentile_replicate c 75 n hn (by norm_num) (by norm_num),
      np_percentile_replicate c 25 n hn (by norm_num) (by norm_num), sub_self]
  · unfold stat_diff_mean
    rw [hdiff]
    split_ifs with hpos
    · exact np_mean_replicate_zero _
    · rfl
  · unfold stat_diff_std
    rw [hdiff]
    split_ifs with hpos
    · unfold np_std
      rw [np_var_replicate_zero]
      simp
    · rfl
  · unfold stat_diff_max
    rw [hdiff]
    split_ifs with hpos
    · rw [List.map_replicate, abs_zero]
      exact np_max_replicate_zero _
    · rfl
  · unfold stat_cv
    rw [hstd, zero_div]

/-- Witness for `constant_series_stats` on the constant series `[5, 5, 5]`. -/
theorem constant_series_stats_witness :
    np_var (List.replicate 3 (5 : ℚ)) = 0
    ∧ np_std (List.replicate 3 (5 : ℚ)) = 0
    ∧ stat_iqr (List.replicate 3 (5 : ℚ)) = 0
    ∧ stat_diff_mean (List.replicate 3 (5 : ℚ)) = 0
    ∧ stat_diff_std (List.replicate 3 (5 : ℚ)) = 0
    ∧ stat_diff_max (List.replicate 3 (5 : ℚ)) = 0
    ∧ stat_cv (List.replicate 3 (5 : ℚ)) = 0 :=
  constant_series_stats 5 3 (by norm_num)
